import Mathlib

/-!
Shallow embedding of the recipe-app-api core: the ownership-scoped query
layer (`app/recipe/views.py`) and the nested-tag reconciliation logic
(`app/recipe/serializers.py`), together with the entity records they
operate on.  The entity store is a single `DB` record; Django querysets
become list filtering and ordering; `Tag.objects.get_or_create` becomes an
explicit lookup-or-append on the tag table.
-/

namespace RecipeApp

/-- Modelled from the spec: `core/models.py` is not under `src/`.  A Tag is
`(owner, name)` (spec section 3), here with its primary-key id. -/
structure Tag where
  id : Nat
  user : Nat
  name : String
deriving DecidableEq

/-- Modelled from the spec: `core/models.py` is not under `src/`.  An
Ingredient has the same shape as a Tag (spec section 3). -/
structure Ingredient where
  id : Nat
  user : Nat
  name : String
deriving DecidableEq

/-- Modelled from the spec: `core/models.py` is not under `src/`.  A Recipe
holds owner, scalar fields, and many-to-many association id-sets; the
association fields are named `tag` / `ingredient` as in the source tests
(`recipe.tag.add`, `recipe.ingredient.add`). -/
structure Recipe where
  id : Nat
  user : Nat
  title : String
  time_minutes : Nat
  price : Int
  link : String
  description : String
  tag : List Nat
  ingredient : List Nat
deriving DecidableEq

/-- The relational store: one table per entity plus auto-increment
counters for primary keys. -/
structure DB where
  tags : List Tag
  ingredients : List Ingredient
  recipes : List Recipe
  nextTagId : Nat
  nextRecipeId : Nat
deriving DecidableEq

/-- Insertion step for `sortBy`. -/
def insertBy (le : α → α → Bool) (x : α) : List α → List α
  | [] => [x]
  | y :: ys => if le x y then x :: y :: ys else y :: insertBy le x ys

/-- Insertion sort; models the `order_by` clause of a queryset.  Only
membership matters for the properties below. -/
def sortBy (le : α → α → Bool) : List α → List α
  | [] => []
  | x :: xs => insertBy le x (sortBy le xs)

/-- `RecipeViewSet.get_queryset` (views.py lines 20 to 24):
`self.queryset.filter(user=self.request.user).order_by("-id")`.
The request's query parameters are not consulted. -/
def RecipeViewSet.get_queryset (db : DB) (u : Nat) : List Recipe :=
  sortBy (fun a b => decide (b.id ≤ a.id)) (db.recipes.filter (fun r => r.user == u))

/-- Lexicographic strict order on character lists (by code point): the
comparison behind `order_by("-name")`. -/
def charListLt : List Char → List Char → Bool
  | _, [] => false
  | [], _ :: _ => true
  | a :: as, b :: bs => a.toNat < b.toNat || (a.toNat == b.toNat && charListLt as bs)

/-- `BaseRecipeAtrrViewSet.get_queryset` (views.py lines 47 to 51):
`self.queryset.filter(user=self.request.user).order_by("-name")`, shared by
the tag and ingredient viewsets; `user_of` / `name_of` stand for the model
fields of the concrete `queryset`. -/
def BaseRecipeAtrrViewSet.get_queryset (user_of : α → Nat) (name_of : α → String)
    (queryset : List α) (u : Nat) : List α :=
  sortBy (fun a b => !charListLt (name_of a).data (name_of b).data)
    (queryset.filter (fun x => user_of x == u))

/-- `TagViewtSet` (source spelling): `queryset = Tag.objects.all()`. -/
def TagViewtSet.get_queryset (db : DB) (u : Nat) : List Tag :=
  BaseRecipeAtrrViewSet.get_queryset Tag.user Tag.name db.tags u

/-- `IngredientViewSet`: `queryset = Ingredient.objects.all()`. -/
def IngredientViewSet.get_queryset (db : DB) (u : Nat) : List Ingredient :=
  BaseRecipeAtrrViewSet.get_queryset Ingredient.user Ingredient.name db.ingredients u

/-- A nested tag (or ingredient) object in a request payload, as accepted by
`TagSerializer`: just a name (`id` is read-only). -/
structure TagData where
  name : String
deriving DecidableEq

/-- The raw client payload for a recipe write.  `tags = none` means the field
was omitted (it is declared `required=False`); `ingredients` and `user` model
client-supplied keys that are NOT in `RecipeSerializer.Meta.fields` and are
therefore dropped by deserialization. -/
structure RecipeRawPayload where
  title : String
  time_minutes : Nat
  price : Int
  link : String
  tags : Option (List TagData)
  ingredients : Option (List TagData)
  user : Option Nat
deriving DecidableEq

/-- The serializer's validated data: exactly the writable fields of
`RecipeSerializer.Meta.fields = ["id", "title", "time_minutes", "price",
"link", "tags"]` (`id` being read-only). -/
structure RecipeValidatedData where
  title : String
  time_minutes : Nat
  price : Int
  link : String
  tags : Option (List TagData)
deriving DecidableEq

/-- Deserialization keeps only the declared fields: `user` and `ingredients`
have no corresponding serializer field on `RecipeSerializer`, so they never
reach `validated_data`. -/
def RecipeSerializer.to_internal_value (p : RecipeRawPayload) : RecipeValidatedData :=
  { title := p.title, time_minutes := p.time_minutes, price := p.price,
    link := p.link, tags := p.tags }

/-- `Tag.objects.get_or_create(user=auth_user, name=...)` (serializers.py
lines 33 to 37): look up a row matching both kwargs; if none exists, insert a
fresh row carrying those kwargs and the next auto-increment id. -/
def Tag.get_or_create (db : DB) (u : Nat) (n : String) : Tag × DB :=
  match db.tags.find? (fun t => t.user == u && t.name == n) with
  | some t => (t, db)
  | none =>
    let t : Tag := ⟨db.nextTagId, u, n⟩
    (t, { db with tags := db.tags ++ [t], nextTagId := db.nextTagId + 1 })

/-- `recipe.tag.add(tag_obj)` (serializers.py line 38): add the association
if not already present, both on the in-memory instance and in the store. -/
def Recipe.tag_add (db : DB) (r : Recipe) (tid : Nat) : Recipe × DB :=
  if tid ∈ r.tag then (r, db)
  else
    let r' := { r with tag := r.tag ++ [tid] }
    (r', { db with recipes := db.recipes.map (fun x => if x.id == r.id then r' else x) })

/-- One iteration of the `for tag in tags` loop in `RecipeSerializer.create`:
get-or-create the tag for the context user, then attach it. -/
def RecipeSerializer.createStep (u : Nat) (acc : Recipe × DB) (td : TagData) : Recipe × DB :=
  let got := Tag.get_or_create acc.2 u td.name
  Recipe.tag_add got.2 acc.1 got.1.id

/-- `RecipeSerializer.create` (serializers.py lines 28 to 40):
`tags = validated_data.pop("tags", [])`, create the recipe row from the
remaining validated data plus the `user` kwarg injected by
`serializer.save(user=...)`, then loop over the nested tags with
get-or-create against `self.context["request"].user` (`ctxUser`) and attach
each.  The serializer never touches the ingredient association. -/
def RecipeSerializer.create (db : DB) (ctxUser saveUser : Nat)
    (vd : RecipeValidatedData) : Recipe × DB :=
  let tags := vd.tags.getD []
  let r0 : Recipe :=
    { id := db.nextRecipeId, user := saveUser, title := vd.title,
      time_minutes := vd.time_minutes, price := vd.price, link := vd.link,
      description := "", tag := [], ingredient := [] }
  let db0 : DB :=
    { db with recipes := db.recipes ++ [r0], nextRecipeId := db.nextRecipeId + 1 }
  tags.foldl (RecipeSerializer.createStep ctxUser) (r0, db0)

/-- `RecipeViewSet.perform_create` (views.py lines 32 to 33):
`serializer.save(user=self.request.user)` — the owner written to the row is
the authenticated request user, merged into the validated data as a kwarg;
the serializer context user is the same request user. -/
def RecipeViewSet.perform_create (db : DB) (requestUser : Nat)
    (vd : RecipeValidatedData) : Recipe × DB :=
  RecipeSerializer.create db requestUser requestUser vd

/-- The full authenticated create operation: deserialize the client payload,
then `perform_create` for the request user. -/
def RecipeViewSet.create (db : DB) (requestUser : Nat) (p : RecipeRawPayload) : Recipe × DB :=
  RecipeViewSet.perform_create db requestUser (RecipeSerializer.to_internal_value p)

/-- Outcome of a detail operation: success, a 404-equivalent not-found, or a
validation/assertion failure.  Distinguishing `notFound` from `invalid`
captures that cross-owner access surfaces as not-found, never as another
error kind. -/
inductive ApiResult (α : Type) where
  | ok (val : α)
  | notFound
  | invalid
deriving DecidableEq

/-- Modelled from the spec: the generic view machinery (`get_object`, i.e.
`get_object_or_404` over `get_queryset()`) is framework code outside `src/`;
spec section 4.3 requires detail access to resolve the identifier inside the
owner-scoped queryset and fail as not-found otherwise.  The scoping itself
is `RecipeViewSet.get_queryset` from the source. -/
def RecipeViewSet.get_object (db : DB) (u pk : Nat) : Option Recipe :=
  (RecipeViewSet.get_queryset db u).find? (fun r => r.id == pk)

/-- Modelled from the spec: `get_object` for the shared attribute viewsets,
resolving the id inside `BaseRecipeAtrrViewSet.get_queryset`. -/
def BaseRecipeAtrrViewSet.get_object (user_of : α → Nat) (name_of : α → String)
    (id_of : α → Nat) (qs : List α) (u pk : Nat) : Option α :=
  (BaseRecipeAtrrViewSet.get_queryset user_of name_of qs u).find? (fun x => id_of x == pk)

def TagViewtSet.get_object (db : DB) (u pk : Nat) : Option Tag :=
  BaseRecipeAtrrViewSet.get_object Tag.user Tag.name Tag.id db.tags u pk

def IngredientViewSet.get_object (db : DB) (u pk : Nat) : Option Ingredient :=
  BaseRecipeAtrrViewSet.get_object Ingredient.user Ingredient.name Ingredient.id db.ingredients u pk

/-- Detail retrieve on a recipe: return the object found in the scoped
queryset, or not-found. -/
def RecipeViewSet.retrieve (db : DB) (u pk : Nat) : ApiResult Recipe :=
  match RecipeViewSet.get_object db u pk with
  | some r => ApiResult.ok r
  | none => ApiResult.notFound

/-- A (possibly partial) update payload for a recipe: `none` means the field
was omitted from the request. -/
structure RecipePatch where
  title : Option String
  time_minutes : Option Nat
  price : Option Int
  link : Option String
  tags : Option (List TagData)
deriving DecidableEq

/-- Modelled from the spec: `RecipeSerializer` defines no `update` method, so
the framework default `ModelSerializer.update` runs.  That default first
calls `raise_errors_on_nested_writes`, which rejects any writable nested
field present in the validated data — `tags` is such a field — with an
assertion failure; otherwise it assigns the supplied scalar attributes and
saves, leaving the many-to-many association untouched. -/
def RecipeSerializer.update (db : DB) (r : Recipe) (p : RecipePatch) : ApiResult Recipe × DB :=
  match p.tags with
  | some _ => (ApiResult.invalid, db)
  | none =>
    let r' : Recipe :=
      { r with title := p.title.getD r.title,
               time_minutes := p.time_minutes.getD r.time_minutes,
               price := p.price.getD r.price,
               link := p.link.getD r.link }
    (ApiResult.ok r',
     { db with recipes := db.recipes.map (fun x => if x.id == r.id then r' else x) })

/-- Detail update on a recipe: resolve the object in the scoped queryset
(not-found on both absence and cross-owner ids), then run the serializer
update. -/
def RecipeViewSet.update (db : DB) (u pk : Nat) (p : RecipePatch) : ApiResult Recipe × DB :=
  match RecipeViewSet.get_object db u pk with
  | none => (ApiResult.notFound, db)
  | some r => RecipeSerializer.update db r p

/-- Detail destroy on a recipe: resolve in the scoped queryset, then delete
the row. -/
def RecipeViewSet.destroy (db : DB) (u pk : Nat) : ApiResult Unit × DB :=
  match RecipeViewSet.get_object db u pk with
  | none => (ApiResult.notFound, db)
  | some r =>
    (ApiResult.ok (),
     { db with recipes := db.recipes.filter (fun x => !(x.id == r.id)) })

/-- Detail update on a tag (`TagSerializer` writes only `name`). -/
def TagViewtSet.update (db : DB) (u pk : Nat) (newName : String) : ApiResult Tag × DB :=
  match TagViewtSet.get_object db u pk with
  | none => (ApiResult.notFound, db)
  | some t =>
    let t' := { t with name := newName }
    (ApiResult.ok t',
     { db with tags := db.tags.map (fun x => if x.id == t.id then t' else x) })

/-- Detail destroy on a tag. -/
def TagViewtSet.destroy (db : DB) (u pk : Nat) : ApiResult Unit × DB :=
  match TagViewtSet.get_object db u pk with
  | none => (ApiResult.notFound, db)
  | some t =>
    (ApiResult.ok (), { db with tags := db.tags.filter (fun x => !(x.id == t.id)) })

/-- Detail update on an ingredient. -/
def IngredientViewSet.update (db : DB) (u pk : Nat) (newName : String) :
    ApiResult Ingredient × DB :=
  match IngredientViewSet.get_object db u pk with
  | none => (ApiResult.notFound, db)
  | some i =>
    let i' := { i with name := newName }
    (ApiResult.ok i',
     { db with ingredients := db.ingredients.map (fun x => if x.id == i.id then i' else x) })

/-- Detail destroy on an ingredient. -/
def IngredientViewSet.destroy (db : DB) (u pk : Nat) : ApiResult Unit × DB :=
  match IngredientViewSet.get_object db u pk with
  | none => (ApiResult.notFound, db)
  | some i =>
    (ApiResult.ok (),
     { db with ingredients := db.ingredients.filter (fun x => !(x.id == i.id)) })

/-- The recipe list action.  `RecipeViewSet.get_queryset` in the source never
reads `self.request.query_params`, so the `tag` and `ingredient` parameters
carried by the request have no effect on the result. -/
def RecipeViewSet.list (db : DB) (u : Nat)
    (tag_param ingredient_param : Option String) : List Recipe :=
  RecipeViewSet.get_queryset db u

/-- The tag list action.  `BaseRecipeAtrrViewSet.get_queryset` in the source
never reads `self.request.query_params`, so an `assigned_only` parameter has
no effect on the result. -/
def TagViewtSet.list (db : DB) (u : Nat) (assigned_only : Option Nat) : List Tag :=
  TagViewtSet.get_queryset db u

/-- The ingredient list action; `assigned_only` is likewise ignored by the
source. -/
def IngredientViewSet.list (db : DB) (u : Nat) (assigned_only : Option Nat) : List Ingredient :=
  IngredientViewSet.get_queryset db u

/-- At most one tag row per `(owner, name)` pair: the store-level uniqueness
invariant the spec assumes for get-or-create (spec section 5). -/
def TagUnique (db : DB) : Prop :=
  db.tags.Pairwise (fun t1 t2 => t1.user ≠ t2.user ∨ t1.name ≠ t2.name)

/-- The tag rows matching a given `(owner, name)` pair. -/
def tagRows (db : DB) (u : Nat) (n : String) : List Tag :=
  db.tags.filter (fun t => t.user == u && t.name == n)

theorem mem_insertBy {le : α → α → Bool} {x a : α} {l : List α} :
    a ∈ insertBy le x l ↔ a = x ∨ a ∈ l := by
  induction l with
  | nil => simp [insertBy]
  | cons y ys ih =>
    by_cases h : le x y
    · simp [insertBy, h]
    · simp only [insertBy, h, Bool.false_eq_true, if_false, List.mem_cons, ih]
      tauto

theorem mem_sortBy {le : α → α → Bool} {a : α} {l : List α} :
    a ∈ sortBy le l ↔ a ∈ l := by
  induction l with
  | nil => simp [sortBy]
  | cons x xs ih => simp [sortBy, mem_insertBy, ih]

theorem recipe_queryset_owner {db : DB} {u : Nat} {r : Recipe}
    (h : r ∈ RecipeViewSet.get_queryset db u) : r ∈ db.recipes ∧ r.user = u := by
  rw [RecipeViewSet.get_queryset, mem_sortBy, List.mem_filter] at h
  simpa using h

theorem attr_queryset_owner {user_of : α → Nat} {name_of : α → String}
    {qs : List α} {u : Nat} {x : α}
    (h : x ∈ BaseRecipeAtrrViewSet.get_queryset user_of name_of qs u) :
    x ∈ qs ∧ user_of x = u := by
  rw [BaseRecipeAtrrViewSet.get_queryset, mem_sortBy, List.mem_filter] at h
  simpa using h

/-- C1: every entity returned by a read-side operation of any of the three
viewsets (recipe list, tag list, ingredient list, recipe detail retrieve) is
owned by the requesting identity; since the querysets never consult filter
parameters, no parameter can widen them. -/
theorem C1_read_ops_owner_scoped (db : DB) (u pk : Nat) :
    (∀ r ∈ RecipeViewSet.get_queryset db u, r.user = u) ∧
    (∀ t ∈ TagViewtSet.get_queryset db u, t.user = u) ∧
    (∀ i ∈ IngredientViewSet.get_queryset db u, i.user = u) ∧
    (∀ r : Recipe, RecipeViewSet.get_object db u pk = some r → r.user = u) := by
  refine ⟨?_, ?_, ?_, ?_⟩
  · intro r hr
    exact (recipe_queryset_owner hr).2
  · intro t ht
    exact (attr_queryset_owner ht).2
  · intro i hi
    exact (attr_queryset_owner hi).2
  · intro r hr
    exact (recipe_queryset_owner (List.mem_of_find?_eq_some hr)).2

/-- Witness for C1 at a concrete store and caller. -/
theorem C1_read_ops_owner_scoped_witness : (⟨5, 1, "Vegan"⟩ : Tag).user = 1 :=
  (C1_read_ops_owner_scoped ⟨[⟨5, 1, "Vegan"⟩], [], [], 6, 0⟩ 1 0).2.1
    ⟨5, 1, "Vegan"⟩ (by decide)

/-- C10: a create whose payload omits `tags` succeeds, and the stored recipe
has an empty tag association set. -/
theorem C10_create_without_tags (db : DB) (u : Nat) (p : RecipeRawPayload)
    (hp : p.tags = none) :
    (RecipeViewSet.create db u p).1.tag = [] ∧
    (RecipeViewSet.create db u p).1 ∈ (RecipeViewSet.create db u p).2.recipes := by
  simp only [RecipeViewSet.create, RecipeViewSet.perform_create, RecipeSerializer.create,
    RecipeSerializer.to_internal_value, hp, Option.getD_none, List.foldl_nil]
  simp

/-- Witness for C10 at a concrete store and payload. -/
theorem C10_create_without_tags_witness :
    (RecipeViewSet.create ⟨[], [], [], 0, 0⟩ 1
        ⟨"sample recipe", 30, 5, "", none, none, none⟩).1.tag = [] ∧
    (RecipeViewSet.create ⟨[], [], [], 0, 0⟩ 1
        ⟨"sample recipe", 30, 5, "", none, none, none⟩).1
      ∈ (RecipeViewSet.create ⟨[], [], [], 0, 0⟩ 1
          ⟨"sample recipe", 30, 5, "", none, none, none⟩).2.recipes :=
  C10_create_without_tags ⟨[], [], [], 0, 0⟩ 1
    ⟨"sample recipe", 30, 5, "", none, none, none⟩ rfl

/-- C5 (failing evaluation): with recipes R1 carrying tag 10, R2 carrying
tag 11 and R3 carrying no tags, all owned by user 1, the list operation with
`tag=10,11` still returns R3 — the source queryset ignores the filter
parameters, so recipes without a matching association are not excluded. -/
theorem C5_filter_params_ignored :
    (⟨3, 1, "Fish and Chips", 10, 5, "", "", [], []⟩ : Recipe) ∈
      RecipeViewSet.list
        ⟨[⟨10, 1, "Vegan"⟩, ⟨11, 1, "Vegetable"⟩], [],
         [⟨1, 1, "Thai Vegetable Curry", 10, 5, "", "", [10], []⟩,
          ⟨2, 1, "Aubergine with Tahini", 10, 5, "", "", [11], []⟩,
          ⟨3, 1, "Fish and Chips", 10, 5, "", "", [], []⟩],
         12, 4⟩
        1 (some "10,11") none := by decide

/-- C6 (failing evaluation): with tag 1 assigned to a recipe of user 1 and
tag 2 assigned to none, listing with `assigned_only=1` still returns tag 2 —
the source queryset ignores the parameter. -/
theorem C6_assigned_only_ignored :
    (⟨2, 1, "Lunch"⟩ : Tag) ∈
      TagViewtSet.list
        ⟨[⟨1, 1, "Breakfast"⟩, ⟨2, 1, "Lunch"⟩], [],
         [⟨1, 1, "Green Eggs on Toast", 10, 2, "", "", [1], []⟩],
         3, 2⟩
        1 (some 1) := by decide

/-- C4 (failing evaluation): a create whose payload carries a nested
`ingredients` list produces a recipe with an empty ingredient association and
creates no ingredient rows — `RecipeSerializer` declares no `ingredients`
field and its `create` handles only tags. -/
theorem C4_ingredients_dropped :
    (RecipeViewSet.create ⟨[], [], [], 0, 0⟩ 1
        ⟨"Vietnamese Soup", 25, 2, "", none,
         some [⟨"Lemon"⟩, ⟨"Fish Souce"⟩], none⟩).1.ingredient = [] ∧
    (RecipeViewSet.create ⟨[], [], [], 0, 0⟩ 1
        ⟨"Vietnamese Soup", 25, 2, "", none,
         some [⟨"Lemon"⟩, ⟨"Fish Souce"⟩], none⟩).2.ingredients = [] := by decide

/-- C2 (failing evaluation): a recipe owned by user 1 has tag 0 attached;
patching it with `tags = []` yields a validation/assertion failure and
leaves the store unchanged (the tag set is not cleared), because
`RecipeSerializer` defines no `update` and the framework default rejects
writable nested fields. -/
theorem C2_update_with_tags_rejected :
    RecipeViewSet.update
        ⟨[⟨0, 1, "Desert"⟩], [],
         [⟨0, 1, "sample recipe title", 22, 5, "", "", [0], []⟩], 1, 1⟩
        1 0 ⟨none, none, none, none, some []⟩
      = (ApiResult.invalid,
         ⟨[⟨0, 1, "Desert"⟩], [],
          [⟨0, 1, "sample recipe title", 22, 5, "", "", [0], []⟩], 1, 1⟩) := by decide

theorem find?_append_of_none {p : α → Bool} {l₁ : List α} (l₂ : List α)
    (h : l₁.find? p = none) : (l₁ ++ l₂).find? p = l₂.find? p := by
  rw [List.find?_append, h, Option.none_or]

theorem eq_of_mem_len_le_one {l : List α} (h : l.length ≤ 1) {a b : α}
    (ha : a ∈ l) (hb : b ∈ l) : a = b := by
  cases l with
  | nil => cases ha
  | cons x xs =>
    cases xs with
    | nil =>
      simp only [List.mem_singleton] at ha hb
      rw [ha, hb]
    | cons y ys => simp at h

theorem tagRows_len_le_one {db : DB} (h : TagUnique db) (u : Nat) (n : String) :
    (tagRows db u n).length ≤ 1 := by
  have hpw : (tagRows db u n).Pairwise (fun t1 t2 => t1.user ≠ t2.user ∨ t1.name ≠ t2.name) := by
    have h' : db.tags.Pairwise (fun t1 t2 => t1.user ≠ t2.user ∨ t1.name ≠ t2.name) := h
    exact h'.sublist (List.filter_sublist _)
  rcases hfl : tagRows db u n with _ | ⟨t1, _ | ⟨t2, ts⟩⟩
  · simp
  · simp
  · exfalso
    rw [hfl] at hpw
    have hr : t1.user ≠ t2.user ∨ t1.name ≠ t2.name :=
      (List.pairwise_cons.1 hpw).1 t2 (List.mem_cons_self _ _)
    have ht1 : t1 ∈ tagRows db u n := by
      rw [hfl]
      exact List.mem_cons_self _ _
    have ht2 : t2 ∈ tagRows db u n := by
      rw [hfl]
      exact List.mem_cons_of_mem _ (List.mem_cons_self _ _)
    rw [tagRows] at ht1 ht2
    have h1 := (List.mem_filter.1 ht1).2
    have h2 := (List.mem_filter.1 ht2).2
    simp only [Bool.and_eq_true, beq_iff_eq] at h1 h2
    rcases hr with hr | hr
    · exact hr (h1.1.trans h2.1.symm)
    · exact hr (h1.2.trans h2.2.symm)

/-- C3: resolving a nested tag name is idempotent.  Under the per-owner
uniqueness invariant: a second get-or-create for the same `(owner, name)`
returns the same tag and the same store; after one get-or-create exactly one
row exists for the pair; and a name already present for that owner is reused
without touching the store. -/
theorem C3_get_or_create_idempotent (db : DB) (u : Nat) (n : String) (hinv : TagUnique db) :
    Tag.get_or_create (Tag.get_or_create db u n).2 u n = Tag.get_or_create db u n ∧
    (tagRows (Tag.get_or_create db u n).2 u n).length = 1 ∧
    (∀ t ∈ db.tags, t.user = u → t.name = n → Tag.get_or_create db u n = (t, db)) := by
  cases hf : db.tags.find? (fun t => t.user == u && t.name == n) with
  | some t0 =>
    have heq : Tag.get_or_create db u n = (t0, db) := by
      rw [Tag.get_or_create, hf]
    have ht0mem : t0 ∈ db.tags := List.mem_of_find?_eq_some hf
    have ht0p := List.find?_some hf
    have ht0rows : t0 ∈ tagRows db u n := List.mem_filter.2 ⟨ht0mem, ht0p⟩
    have hlen : (tagRows db u n).length = 1 := by
      refine Nat.le_antisymm (tagRows_len_le_one hinv u n) ?_
      exact List.length_pos.2 (List.ne_nil_of_mem ht0rows)
    refine ⟨?_, ?_, ?_⟩
    · rw [heq]
      exact heq
    · rw [heq]
      exact hlen
    · intro t htmem htu htn
      have htrows : t ∈ tagRows db u n := by
        refine List.mem_filter.2 ⟨htmem, ?_⟩
        simp [htu, htn]
      have ht : t = t0 := eq_of_mem_len_le_one (tagRows_len_le_one hinv u n) htrows ht0rows
      rw [heq, ht]
  | none =>
    have heq : Tag.get_or_create db u n
        = (({ id := db.nextTagId, user := u, name := n } : Tag),
           { db with tags := db.tags ++ [{ id := db.nextTagId, user := u, name := n }],
                     nextTagId := db.nextTagId + 1 }) := by
      rw [Tag.get_or_create, hf]
    have hnomatch : ∀ t ∈ db.tags, ¬ ((t.user == u && t.name == n) = true) :=
      List.find?_eq_none.1 hf
    have hfilter : db.tags.filter (fun t => t.user == u && t.name == n) = [] := by
      rw [List.filter_eq_nil_iff]
      exact hnomatch
    have hpnew : (({ id := db.nextTagId, user := u, name := n } : Tag).user == u
        && ({ id := db.nextTagId, user := u, name := n } : Tag).name == n) = true := by simp
    have hfind : (db.tags ++ [({ id := db.nextTagId, user := u, name := n } : Tag)]).find?
        (fun t => t.user == u && t.name == n)
        = some { id := db.nextTagId, user := u, name := n } := by
      rw [find?_append_of_none _ hf]
      exact List.find?_cons_of_pos _ hpnew
    refine ⟨?_, ?_, ?_⟩
    · rw [heq, Tag.get_or_create]
      simp only [hfind]
    · rw [heq, tagRows]
      simp only [List.filter_append, hfilter, List.nil_append, List.filter_cons, hpnew]
      simp
    · intro t htmem htu htn
      exfalso
      refine hnomatch t htmem ?_
      simp [htu, htn]

/-- Witness for C3 at a concrete store already holding the row. -/
theorem C3_get_or_create_idempotent_witness :
    Tag.get_or_create
        (Tag.get_or_create ⟨[⟨0, 1, "Indian"⟩], [], [], 1, 0⟩ 1 "Indian").2 1 "Indian"
      = Tag.get_or_create ⟨[⟨0, 1, "Indian"⟩], [], [], 1, 0⟩ 1 "Indian" ∧
    (tagRows (Tag.get_or_create ⟨[⟨0, 1, "Indian"⟩], [], [], 1, 0⟩ 1 "Indian").2
        1 "Indian").length = 1 :=
  ⟨(C3_get_or_create_idempotent ⟨[⟨0, 1, "Indian"⟩], [], [], 1, 0⟩ 1 "Indian"
      (by rw [TagUnique]; decide)).1,
   (C3_get_or_create_idempotent ⟨[⟨0, 1, "Indian"⟩], [], [], 1, 0⟩ 1 "Indian"
      (by rw [TagUnique]; decide)).2.1⟩

theorem recipe_get_object_none {db : DB} {u pk : Nat}
    (hR : ∀ r ∈ db.recipes, r.id = pk → r.user ≠ u) :
    RecipeViewSet.get_object db u pk = none := by
  rw [RecipeViewSet.get_object, List.find?_eq_none]
  intro r hr
  obtain ⟨hmem, huser⟩ := recipe_queryset_owner hr
  simp only [beq_iff_eq]
  intro hid
  exact hR r hmem hid huser

theorem attr_get_object_none {user_of : α → Nat} {name_of : α → String}
    {id_of : α → Nat} {qs : List α} {u pk : Nat}
    (h : ∀ x ∈ qs, id_of x = pk → user_of x ≠ u) :
    BaseRecipeAtrrViewSet.get_object user_of name_of id_of qs u pk = none := by
  rw [BaseRecipeAtrrViewSet.get_object, List.find?_eq_none]
  intro x hx
  obtain ⟨hmem, huser⟩ := attr_queryset_owner hx
  simp only [beq_iff_eq]
  intro hid
  exact h x hmem hid huser

/-- C7: a detail operation (retrieve, update, destroy) on an identifier whose
rows are all owned by someone other than the caller resolves to a
404-equivalent not-found — never another error kind — and leaves the store
unchanged, for recipes, tags and ingredients alike. -/
theorem C7_cross_owner_detail_not_found (db : DB) (u pk : Nat) (p : RecipePatch) (nm : String)
    (hR : ∀ r ∈ db.recipes, r.id = pk → r.user ≠ u)
    (hT : ∀ t ∈ db.tags, t.id = pk → t.user ≠ u)
    (hI : ∀ i ∈ db.ingredients, i.id = pk → i.user ≠ u) :
    RecipeViewSet.retrieve db u pk = ApiResult.notFound ∧
    RecipeViewSet.update db u pk p = (ApiResult.notFound, db) ∧
    RecipeViewSet.destroy db u pk = (ApiResult.notFound, db) ∧
    TagViewtSet.update db u pk nm = (ApiResult.notFound, db) ∧
    TagViewtSet.destroy db u pk = (ApiResult.notFound, db) ∧
    IngredientViewSet.update db u pk nm = (ApiResult.notFound, db) ∧
    IngredientViewSet.destroy db u pk = (ApiResult.notFound, db) := by
  have hRo : RecipeViewSet.get_object db u pk = none := recipe_get_object_none hR
  have hTo : TagViewtSet.get_object db u pk = none := attr_get_object_none hT
  have hIo : IngredientViewSet.get_object db u pk = none := attr_get_object_none hI
  refine ⟨?_, ?_, ?_, ?_, ?_, ?_, ?_⟩
  · rw [RecipeViewSet.retrieve, hRo]
  · rw [RecipeViewSet.update, hRo]
  · rw [RecipeViewSet.destroy, hRo]
  · rw [TagViewtSet.update, hTo]
  · rw [TagViewtSet.destroy, hTo]
  · rw [IngredientViewSet.update, hIo]
  · rw [IngredientViewSet.destroy, hIo]

/-- Witness for C7: caller 1 targets id 7, whose recipe, tag and ingredient
rows are all owned by user 2. -/
theorem C7_cross_owner_detail_not_found_witness :
    RecipeViewSet.retrieve
        ⟨[⟨7, 2, "Fruity"⟩], [⟨7, 2, "Salt"⟩],
         [⟨7, 2, "other title", 5, 3, "", "", [], []⟩], 8, 8⟩ 1 7
      = ApiResult.notFound ∧
    TagViewtSet.destroy
        ⟨[⟨7, 2, "Fruity"⟩], [⟨7, 2, "Salt"⟩],
         [⟨7, 2, "other title", 5, 3, "", "", [], []⟩], 8, 8⟩ 1 7
      = (ApiResult.notFound,
         ⟨[⟨7, 2, "Fruity"⟩], [⟨7, 2, "Salt"⟩],
          [⟨7, 2, "other title", 5, 3, "", "", [], []⟩], 8, 8⟩) :=
  ⟨(C7_cross_owner_detail_not_found
      ⟨[⟨7, 2, "Fruity"⟩], [⟨7, 2, "Salt"⟩],
       [⟨7, 2, "other title", 5, 3, "", "", [], []⟩], 8, 8⟩ 1 7
      ⟨none, none, none, none, none⟩ "Desert"
      (by decide) (by decide) (by decide)).1,
   (C7_cross_owner_detail_not_found
      ⟨[⟨7, 2, "Fruity"⟩], [⟨7, 2, "Salt"⟩],
       [⟨7, 2, "other title", 5, 3, "", "", [], []⟩], 8, 8⟩ 1 7
      ⟨none, none, none, none, none⟩ "Desert"
      (by decide) (by decide) (by decide)).2.2.2.2.1⟩

/-- C8: a partial update of a recipe whose payload omits `tags` succeeds
and only the supplied scalar fields change: the updated row keeps the
previous tag association set (and identity, owner and ingredient set), and
the store change is exactly the replacement of that row. -/
theorem C8_patch_omitting_tags_keeps_associations (db : DB) (u pk : Nat) (p : RecipePatch)
    (r : Recipe) (hp : p.tags = none) (hr : RecipeViewSet.get_object db u pk = some r) :
    ∃ r' : Recipe,
      RecipeViewSet.update db u pk p
        = (ApiResult.ok r',
           { db with recipes := db.recipes.map (fun x => if x.id == r.id then r' else x) }) ∧
      r'.tag = r.tag ∧ r'.ingredient = r.ingredient ∧ r'.id = r.id ∧ r'.user = r.user := by
  refine ⟨{ r with title := p.title.getD r.title,
                   time_minutes := p.time_minutes.getD r.time_minutes,
                   price := p.price.getD r.price,
                   link := p.link.getD r.link }, ?_, rfl, rfl, rfl, rfl⟩
  rw [RecipeViewSet.update, hr]
  simp only [RecipeSerializer.update, hp]

/-- Witness for C8: a concrete store, a patch supplying only a new title. -/
theorem C8_patch_omitting_tags_keeps_associations_witness :
    ∃ r' : Recipe,
      RecipeViewSet.update
          ⟨[⟨0, 1, "Desert"⟩], [], [⟨0, 1, "Sample recipe title", 22, 5, "", "", [0], []⟩], 1, 1⟩
          1 0 ⟨some "New recipe title", none, none, none, none⟩
        = (ApiResult.ok r',
           { tags := [⟨0, 1, "Desert"⟩], ingredients := [],
             recipes := [(⟨0, 1, "Sample recipe title", 22, 5, "", "", [0], []⟩ : Recipe)].map
               (fun x => if x.id == (0 : Nat) then r' else x),
             nextTagId := 1, nextRecipeId := 1 }) ∧
      r'.tag = [0] ∧ r'.ingredient = [] ∧ r'.id = 0 ∧ r'.user = 1 := by
  obtain ⟨r', h1, h2, h3, h4, h5⟩ :=
    C8_patch_omitting_tags_keeps_associations
      ⟨[⟨0, 1, "Desert"⟩], [], [⟨0, 1, "Sample recipe title", 22, 5, "", "", [0], []⟩], 1, 1⟩
      1 0 ⟨some "New recipe title", none, none, none, none⟩
      ⟨0, 1, "Sample recipe title", 22, 5, "", "", [0], []⟩ rfl (by decide)
  exact ⟨r', h1, h2, h3, h4, h5⟩

theorem get_or_create_user_eq (db : DB) (u : Nat) (n : String) :
    (Tag.get_or_create db u n).1.user = u := by
  cases hf : db.tags.find? (fun t => t.user == u && t.name == n) with
  | none => simp [Tag.get_or_create, hf]
  | some t =>
    have h := List.find?_some hf
    simp only [Bool.and_eq_true, beq_iff_eq] at h
    simp [Tag.get_or_create, hf, h.1]

theorem get_or_create_self_mem (db : DB) (u : Nat) (n : String) :
    (Tag.get_or_create db u n).1 ∈ (Tag.get_or_create db u n).2.tags := by
  cases hf : db.tags.find? (fun t => t.user == u && t.name == n) with
  | none => simp [Tag.get_or_create, hf]
  | some t => simp [Tag.get_or_create, hf, List.mem_of_find?_eq_some hf]

theorem get_or_create_tags_mono {db : DB} {u : Nat} {n : String} {t : Tag}
    (h : t ∈ db.tags) : t ∈ (Tag.get_or_create db u n).2.tags := by
  cases hf : db.tags.find? (fun x => x.user == u && x.name == n) with
  | none => simp [Tag.get_or_create, hf, h]
  | some t0 => simpa [Tag.get_or_create, hf] using h

theorem tag_add_tags_eq (db : DB) (r : Recipe) (tid : Nat) :
    (Recipe.tag_add db r tid).2.tags = db.tags := by
  rw [Recipe.tag_add]
  split <;> rfl

theorem tag_add_user_eq (db : DB) (r : Recipe) (tid : Nat) :
    (Recipe.tag_add db r tid).1.user = r.user := by
  rw [Recipe.tag_add]
  split <;> rfl

theorem tag_add_tag_mem {db : DB} {r : Recipe} {tid x : Nat}
    (h : x ∈ (Recipe.tag_add db r tid).1.tag) : x = tid ∨ x ∈ r.tag := by
  rw [Recipe.tag_add] at h
  split at h
  · exact Or.inr h
  · simp only [List.mem_append, List.mem_singleton] at h
    tauto

theorem createStep_fold_user (u : Nat) (tds : List TagData) (r : Recipe) (db : DB) :
    (tds.foldl (RecipeSerializer.createStep u) (r, db)).1.user = r.user := by
  induction tds generalizing r db with
  | nil => rfl
  | cons td tds ih =>
    rw [List.foldl_cons]
    show (tds.foldl (RecipeSerializer.createStep u)
        (RecipeSerializer.createStep u (r, db) td)).1.user = r.user
    rw [RecipeSerializer.createStep]
    rw [ih]
    exact tag_add_user_eq _ _ _

theorem createStep_fold_tags_owned (u : Nat) (tds : List TagData) (r : Recipe) (db : DB)
    (h : ∀ tid ∈ r.tag, ∃ t ∈ db.tags, t.id = tid ∧ t.user = u) :
    ∀ tid ∈ (tds.foldl (RecipeSerializer.createStep u) (r, db)).1.tag,
      ∃ t ∈ (tds.foldl (RecipeSerializer.createStep u) (r, db)).2.tags,
        t.id = tid ∧ t.user = u := by
  induction tds generalizing r db with
  | nil => simpa using h
  | cons td tds ih =>
    rw [List.foldl_cons]
    intro tid htid
    refine ih (RecipeSerializer.createStep u (r, db) td).1
      (RecipeSerializer.createStep u (r, db) td).2 ?_ tid htid
    intro x hx
    have hx' : x = (Tag.get_or_create db u td.name).1.id ∨ x ∈ r.tag :=
      tag_add_tag_mem hx
    show ∃ t ∈ (Recipe.tag_add (Tag.get_or_create db u td.name).2 r
        (Tag.get_or_create db u td.name).1.id).2.tags, t.id = x ∧ t.user = u
    rw [tag_add_tags_eq]
    rcases hx' with heq | hmem
    · exact ⟨(Tag.get_or_create db u td.name).1, get_or_create_self_mem db u td.name,
        heq.symm, get_or_create_user_eq db u td.name⟩
    · obtain ⟨t, htmem, htid', htuser⟩ := h x hmem
      exact ⟨t, get_or_create_tags_mono htmem, htid', htuser⟩

/-- C9: a recipe created through the authenticated create operation is owned
by the acting identity; a client-supplied owner value is ignored (the result
is identical whatever `user` value the payload carries); and every tag
attached during the creation is a row owned by the acting identity. -/
theorem C9_create_owner_invariants (db : DB) (u : Nat) (p : RecipeRawPayload) :
    (RecipeViewSet.create db u p).1.user = u ∧
    (∀ v : Nat, RecipeViewSet.create db u { p with user := some v }
        = RecipeViewSet.create db u p) ∧
    (∀ tid ∈ (RecipeViewSet.create db u p).1.tag,
       ∃ t ∈ (RecipeViewSet.create db u p).2.tags, t.id = tid ∧ t.user = u) := by
  refine ⟨?_, fun v => rfl, ?_⟩
  · show (RecipeSerializer.create db u u (RecipeSerializer.to_internal_value p)).1.user = u
    rw [RecipeSerializer.create]
    rw [createStep_fold_user]
  · show ∀ tid ∈ (RecipeSerializer.create db u u (RecipeSerializer.to_internal_value p)).1.tag,
      ∃ t ∈ (RecipeSerializer.create db u u (RecipeSerializer.to_internal_value p)).2.tags,
        t.id = tid ∧ t.user = u
    rw [RecipeSerializer.create]
    apply createStep_fold_tags_owned
    intro tid htid
    cases htid

/-- Witness for C9: user 1 creates a recipe with one nested tag while the
payload tries to set `user = 99`. -/
theorem C9_create_owner_invariants_witness :
    (RecipeViewSet.create ⟨[], [], [], 0, 0⟩ 1
        ⟨"Pongal", 60, 4, "", some [⟨"Indian"⟩], none, some 99⟩).1.user = 1 ∧
    (∃ t ∈ (RecipeViewSet.create ⟨[], [], [], 0, 0⟩ 1
        ⟨"Pongal", 60, 4, "", some [⟨"Indian"⟩], none, some 99⟩).2.tags,
      t.id = 0 ∧ t.user = 1) :=
  ⟨(C9_create_owner_invariants ⟨[], [], [], 0, 0⟩ 1
      ⟨"Pongal", 60, 4, "", some [⟨"Indian"⟩], none, some 99⟩).1,
   (C9_create_owner_invariants ⟨[], [], [], 0, 0⟩ 1
      ⟨"Pongal", 60, 4, "", some [⟨"Indian"⟩], none, some 99⟩).2.2 0 (by decide)⟩

end RecipeApp
